import Mathlib

/-!
Verification of the Claude-Code-Remote Slack relay core
(`start-slack-webhook.js` and the `SlackChannel` class).

Strings are modelled as `List Char`. External effects are modelled as
explicit parameters: the clock (`now`, milliseconds since the epoch), the
random draws of the token generator, the uuid supplied for a new session,
the outcome of the `tmux display-message` query, and the outcome of the
Slack `chat.postMessage` call. The session-file directory is modelled as a
list of session records keyed by `id` (one durable record per file).
-/

namespace ClaudeCodeRemote

/-- JavaScript whitespace, as recognised both by `String.prototype.trim`
and by the regex class `\s` (same character set in both, which is what the
proofs rely on). We list the common members. -/
def isSpace (c : Char) : Bool :=
  c == ' ' || c == '\t' || c == '\n' || c == '\r' ||
  c == '\x0b' || c == '\x0c' || c == ' ' || c == ' ' || c == ' '

/-- `s.dropWhile` from the left: leading whitespace removal of `trim`. -/
def trimLeft (s : List Char) : List Char := s.dropWhile isSpace

/-- Trailing whitespace removal of `trim`. -/
def trimRight (s : List Char) : List Char := (s.reverse.dropWhile isSpace).reverse

/-- Model of JavaScript `text.trim()`. -/
def trim (s : List Char) : List Char := trimRight (trimLeft s)

/-- Character class `[A-Z0-9]` of the webhook's token regex. -/
def isTokenChar (c : Char) : Bool :=
  ('A' ≤ c && c ≤ 'Z') || ('0' ≤ c && c ≤ '9')

/-- Model of `text.match(/^([A-Z0-9]{8})\s/) !== null`: the string starts
with eight characters in `[A-Z0-9]` followed by one whitespace character. -/
def tokenRegexAccepts (s : List Char) : Bool :=
  (s.take 8).all isTokenChar && ((s.drop 8).head?.map isSpace).getD false

/-- Observable outcome of the `/claude` slash-command handler
(`app.command('/claude', ...)` in `start-slack-webhook.js`). -/
inductive SlashReply where
  /-- reply `Invalid command format. Please use: ...` (regex did not match) -/
  | formatError : SlashReply
  /-- reply `Invalid command format. Please include a command after the token.` -/
  | emptyCommandError : SlashReply
  /-- `slackChannel.handleCommand(commandText, \x7b token \x7d)` is invoked -/
  | invoke (token commandText : List Char) : SlashReply
  deriving Repr, DecidableEq

/-- Model of the `/claude` handler body: trim the input, match
`/^([A-Z0-9]{8})\s/`, extract `token = match[1]` (the first 8 characters)
and `commandText = text.substring(token.length + 1)` (drop 9), then reject
an empty `commandText`, otherwise invoke the relay. -/
def handleSlashCommand (text : List Char) : SlashReply :=
  let s := trim text
  if tokenRegexAccepts s then
    let token := s.take 8
    let commandText := s.drop 9
    if commandText.isEmpty then SlashReply.emptyCommandError
    else SlashReply.invoke token commandText
  else SlashReply.formatError

/-- The alphabet string `'ABCDEFGHIJKLMNOPQRSTUVWXYZ0123456789'` of
`_generateToken`. -/
def tokenAlphabet : List Char := String.toList "ABCDEFGHIJKLMNOPQRSTUVWXYZ0123456789"

/-- Model of `_generateToken`: eight draws of
`chars.charAt(Math.floor(Math.random() * chars.length))`; each
`Math.floor(Math.random() * 36)` lands in `0..35`, modelled as `Fin 36`.
The generator consults nothing but its random draws (in particular, not
the session store). -/
def generateToken (draws : Fin 8 → Fin 36) : List Char :=
  (List.finRange 8).map fun i => tokenAlphabet.getD (draws i).val 'A'

/-- Model of `_getCurrentTmuxSession`. The outcome of
`execSync('tmux display-message -p "#S"')` is a parameter: `none` models
the call throwing (no tmux, query failure), `some out` models it returning
the raw stdout `out`. The code trims the output and maps an empty result
to `null` via `tmuxSession || null`; the `catch` arm returns `null`. -/
def getCurrentTmuxSession (execOutcome : Option (List Char)) : Option (List Char) :=
  match execOutcome with
  | none => none
  | some out =>
    let t := trim out
    if t.isEmpty then none else some t

/-- The `metadata` object attached to a notification: either supplied by the
caller of `send`, or populated by `_createSession` from the tmux monitor.
`tmuxSession` is optional because caller-supplied metadata may lack it. -/
structure Metadata where
  userQuestion : List Char
  claudeResponse : List Char
  tmuxSession : Option (List Char)
  deriving Repr, DecidableEq

/-- What `tmuxMonitor.getRecentConversation(tmuxSession)` would return;
an external dependency of `_createSession`, passed in as a parameter.
Empty strings model falsy fields (`conversation.userQuestion || ...`). -/
structure Conversation where
  userQuestion : List Char
  claudeResponse : List Char
  deriving Repr, DecidableEq

/-- The notification object `\x7btype, project, message, metadata?\x7d`
supplied at the session-creation boundary. -/
structure Notification where
  type : List Char
  project : List Char
  message : List Char
  metadata : Option Metadata
  deriving Repr, DecidableEq

/-- A persisted session record, exactly the JSON written by
`_createSession` to `data/sessions/<id>.json`. The uuid `id` is modelled
as a `Nat`; `created` and `expires` are milliseconds since the epoch (the
ISO strings the code stores are order- and difference-faithful images of
those). -/
structure Session where
  id : Nat
  token : List Char
  type : List Char
  created : Nat
  expires : Nat
  tmuxSession : List Char
  project : List Char
  notification : Notification
  deriving Repr, DecidableEq

/-- The sessions directory: one durable record per file, keyed by `id`. -/
abbrev Store := List Session

/-- Model of `_removeSession`: delete the record file with this id if it
exists; nothing otherwise (`fs.existsSync` guard). -/
def removeSession (store : Store) (sessionId : Nat) : Store :=
  store.filter fun r => r.id != sessionId

/-- The sentinel target context `'default'`. -/
def defaultContext : List Char := String.toList "default"

/-- Model of the field expression
`notification.metadata?.tmuxSession || 'default'`: absent metadata, an
absent `tmuxSession` field, or an empty string all fall back to the
sentinel. -/
def resolveTmuxField (metadata : Option Metadata) : List Char :=
  match metadata with
  | none => defaultContext
  | some m =>
    match m.tmuxSession with
    | none => defaultContext
    | some ts => if ts.isEmpty then defaultContext else ts

/-- Result of `_createSession`: the record it built and the store after
`fs.writeFileSync` (write keyed by id; an existing file with the same id
would be overwritten). -/
structure CreateResult where
  session : Session
  store : Store
  deriving Repr, DecidableEq

/-- Model of `_createSession(notification, token)`. Parameters supply the
externals: the fresh uuid `sessionId`, the clock `now` (both
`new Date()` and `Date.now()` are modelled as reading this same instant),
the result `currentTmux` of `_getCurrentTmuxSession()`, and the
conversation `conv` the tmux monitor would report. When a tmux session was
resolved (truthy: non-empty) and the notification carries no metadata, the
code populates `notification.metadata` from the recent conversation; then
it builds the record with `expires` 24 hours after `created` and persists
it. -/
def createSession (store : Store) (now : Nat) (sessionId : Nat)
    (currentTmux : Option (List Char)) (conv : Conversation)
    (notification : Notification) (token : List Char) : CreateResult :=
  let notif :=
    match currentTmux, notification.metadata with
    | some ts, none =>
      if ts.isEmpty then notification
      else
        { notification with
          metadata := some
            { userQuestion :=
                if conv.userQuestion.isEmpty then notification.message
                else conv.userQuestion
            , claudeResponse :=
                if conv.claudeResponse.isEmpty then notification.message
                else conv.claudeResponse
            , tmuxSession := some ts } }
    | _, _ => notification
  let session : Session :=
    { id := sessionId
    , token := token
    , type := String.toList "slack"
    , created := now
    , expires := now + 24 * 60 * 60 * 1000
    , tmuxSession := resolveTmuxField notif.metadata
    , project := notif.project
    , notification := notif }
  { session := session
  , store := (store.filter fun r => r.id != sessionId) ++ [session] }

/-- Model of `_generateSlackMessage(notification, token)`. -/
def generateSlackMessage (notification : Notification) (token : List Char) :
    List Char :=
  let completed := notification.type == String.toList "completed"
  let emoji := if completed then String.toList "✅" else String.toList "⏳"
  let status :=
    if completed then String.toList "Completed"
    else String.toList "Waiting for Input"
  let header :=
    emoji ++ String.toList " *Claude Task " ++ status ++ String.toList "*\n\n"
  let projectPart :=
    String.toList "*Project:*\n" ++ notification.project ++ String.toList "\n\n"
  let tokenPart :=
    String.toList "*Session Token:*\n`" ++ token ++ String.toList "`\n\n"
  let questionPart :=
    match notification.metadata with
    | some md =>
      if md.userQuestion.isEmpty then []
      else
        String.toList "*Your Question:*\n> " ++ md.userQuestion.take 500 ++
          String.toList "\n\n"
    | none => []
  let responsePart :=
    match notification.metadata with
    | some md =>
      if md.claudeResponse.isEmpty then []
      else
        String.toList "*Claude Response:*\n> " ++ md.claudeResponse.take 1000 ++
          String.toList "\n\n"
    | none => []
  let footer :=
    String.toList "To send a new command, use: `/claude " ++ token ++
      String.toList " <your command>`"
  header ++ projectPart ++ tokenPart ++ questionPart ++ responsePart ++ footer

/-- Observable outcome of `_sendImpl`: the value returned (or the error
thrown, as `Except.error`), the session directory afterwards, and the text
passed to `chat.postMessage` (none when the config guard throws first). -/
structure SendResult where
  retval : Except (List Char) Bool
  store : Store
  posted : Option (List Char)
  deriving Repr

/-- Model of `_sendImpl(notification)`. `configValid` is the result of
`this.validateConfig()`; `postSucceeds` is the outcome of the
`chat.postMessage` call. On a post failure the code removes the session it
just created and returns `false`; on success it returns `true`. -/
def sendImpl (store : Store) (now : Nat) (sessionId : Nat) (configValid : Bool)
    (currentTmux : Option (List Char)) (conv : Conversation)
    (notification : Notification) (token : List Char) (postSucceeds : Bool) :
    SendResult :=
  if configValid then
    let cr := createSession store now sessionId currentTmux conv notification token
    let messageText := generateSlackMessage cr.session.notification token
    if postSucceeds then
      { retval := Except.ok true, store := cr.store, posted := some messageText }
    else
      { retval := Except.ok false
      , store := removeSession cr.store sessionId
      , posted := some messageText }
  else
    { retval := Except.error (String.toList "Slack channel not properly configured")
    , store := store
    , posted := none }

/-- A concrete notification used by closed example theorems. -/
def sampleNotification : Notification :=
  { type := String.toList "completed"
  , project := String.toList "demo"
  , message := String.toList "done"
  , metadata := none }

/-- A concrete conversation value used by closed example theorems. -/
def sampleConversation : Conversation :=
  { userQuestion := [], claudeResponse := [] }

/-- A concrete token value used by closed example theorems. -/
def sampleToken : List Char := String.toList "AB12CD34"

/-- A concrete persisted session record used by closed example theorems. -/
def sampleSession : Session :=
  { id := 5
  , token := sampleToken
  , type := String.toList "slack"
  , created := 0
  , expires := 86400000
  , tmuxSession := String.toList "work"
  , project := String.toList "demo"
  , notification := sampleNotification }

/-- A sequence of random draws in which every draw returns index 0, so the
generated token is `AAAAAAAA` every time it is used. -/
def collidingDraws : Fin 8 → Fin 36 := fun _ => 0

/-- The first of two consecutive creations whose random draws all land on
index 0 (token `AAAAAAAA`), over an empty store at time 0 with uuid 1. -/
def collisionFirst : CreateResult :=
  createSession [] 0 1 none sampleConversation sampleNotification
    (generateToken collidingDraws)

/-- The second creation with the same all-zero draws, over the store left
by the first, at time 0 with uuid 2. -/
def collisionSecond : CreateResult :=
  createSession collisionFirst.store 0 2 none sampleConversation sampleNotification
    (generateToken collidingDraws)

/-- The spec's inbound-trigger format `^[A-Z0-9]{8}\s+.+$`, stated from the
spec's words over the same character classes as the code: eight characters
of `[A-Z0-9]`, then one or more whitespace characters, then a non-empty
remainder. -/
def specInboundPattern (s : List Char) : Prop :=
  ∃ tok ws rest, s = tok ++ ws ++ rest ∧ tok.length = 8 ∧ tok.all isTokenChar
    ∧ ws ≠ [] ∧ ws.all isSpace ∧ rest ≠ []

/-! ## Helper lemmas -/

/-- Every entry of the token alphabet, indexed by a draw, is in `[A-Z0-9]`. -/
theorem tokenAlphabet_entry_ok : ∀ k : Fin 36, isTokenChar (tokenAlphabet.getD k.val 'A') = true := by
  decide

/-- The head of `dropWhile p`, when present, fails `p`. -/
theorem head?_dropWhile_not (p : Char → Bool) (l : List Char) (c : Char)
    (h : (l.dropWhile p).head? = some c) : p c = false := by
  induction l with
  | nil => simp [List.dropWhile] at h
  | cons a t ih =>
    rw [List.dropWhile_cons] at h
    by_cases hp : p a
    · rw [if_pos hp] at h
      exact ih h
    · rw [if_neg hp] at h
      simp only [List.head?_cons, Option.some.injEq] at h
      rw [← h]
      exact Bool.of_not_eq_true hp

/-- A trimmed string never ends in a whitespace character. -/
theorem trim_last_not_space (t : List Char) (c : Char)
    (h : (trim t).reverse.head? = some c) : isSpace c = false := by
  unfold trim trimRight at h
  rw [List.reverse_reverse] at h
  exact head?_dropWhile_not isSpace _ c h

/-- Unpacking `tokenRegexAccepts`: the eight-character class check and the
whitespace character at index 8. -/
theorem tokenRegexAccepts_iff (s : List Char) :
    tokenRegexAccepts s = true ↔
      (s.take 8).all isTokenChar = true ∧
        ∃ c, (s.drop 8).head? = some c ∧ isSpace c = true := by
  unfold tokenRegexAccepts
  rw [Bool.and_eq_true]
  cases hh : (s.drop 8).head? with
  | none => simp [hh]
  | some c => simp [hh]

/-- The spec pattern, characterised by the code's own checks: the regex
accepts the string and the part after the first nine characters is
non-empty. -/
theorem specInboundPattern_iff (s : List Char) :
    specInboundPattern s ↔ tokenRegexAccepts s = true ∧ s.drop 9 ≠ [] := by
  constructor
  · rintro ⟨tok, ws, rest, rfl, hlen, htok, hws, hwssp, hrest⟩
    obtain ⟨c, ws', rfl⟩ := List.exists_cons_of_ne_nil hws
    have hsp : isSpace c = true := by
      have := List.all_eq_true.mp hwssp c (by simp)
      simpa using this
    have htake : ((tok ++ (c :: ws') ++ rest).take 8) = tok := by
      rw [List.append_assoc]
      exact List.take_left' hlen
    have hdrop : ((tok ++ (c :: ws') ++ rest).drop 8) = c :: (ws' ++ rest) := by
      rw [List.append_assoc]
      rw [List.drop_left' hlen]
      simp
    constructor
    · rw [tokenRegexAccepts_iff]
      refine ⟨by rw [htake]; exact htok, c, ?_, hsp⟩
      rw [hdrop]
      rfl
    · have h9 : (tok ++ (c :: ws') ++ rest).drop 9 = ws' ++ rest := by
        have : (tok ++ (c :: ws') ++ rest).drop 9
            = ((tok ++ (c :: ws') ++ rest).drop 8).drop 1 := by
          rw [List.drop_drop]
        rw [this, hdrop]
        rfl
      rw [h9]
      simp [hrest]
  · rintro ⟨hacc, h9⟩
    obtain ⟨hall, c, hc, hsp⟩ := (tokenRegexAccepts_iff s).mp hacc
    obtain ⟨c', t, hh⟩ : ∃ c' t, s.drop 8 = c' :: t := by
      cases hd : s.drop 8 with
      | nil => rw [hd] at hc; exact absurd hc (by simp)
      | cons a b => exact ⟨a, b, rfl⟩
    have hcc : c' = c := by
      rw [hh] at hc
      simpa using hc
    subst hcc
    have ht : t = s.drop 9 := by
      have : (s.drop 8).drop 1 = s.drop 9 := by rw [List.drop_drop]
      rw [hh] at this
      simpa using this
    have hlen9 : 9 ≤ s.length := by
      have := congrArg List.length hh
      rw [List.length_drop] at this
      simp only [List.length_cons] at this
      omega
    refine ⟨s.take 8, [c'], s.drop 9, ?_, ?_, hall, by simp, by simp [hsp], h9⟩
    · rw [List.append_assoc]
      have := List.take_append_drop 8 s
      rw [hh, ht] at this
      exact this.symm
    · rw [List.length_take]
      omega

/-- The handler never replies with the `include a command after the token`
message: a trimmed input accepted by the token regex always has a
non-empty remainder after index 9 (shared by the C4 and C10 theorems). -/
theorem handleSlashCommand_no_empty_reply (text : List Char) :
    handleSlashCommand text ≠ SlashReply.emptyCommandError := by
  intro h
  simp only [handleSlashCommand] at h
  split at h
  case isTrue hacc =>
    split at h
    case isTrue hemp =>
      obtain ⟨hall, c, hc, hsp⟩ := (tokenRegexAccepts_iff (trim text)).mp hacc
      have h9 : (trim text).drop 9 = [] := List.isEmpty_iff.mp hemp
      have hh : (trim text).drop 8 = [c] := by
        obtain ⟨c', t, hh⟩ : ∃ c' t, (trim text).drop 8 = c' :: t := by
          cases hd : (trim text).drop 8 with
          | nil => rw [hd] at hc; exact absurd hc (by simp)
          | cons a b => exact ⟨a, b, rfl⟩
        have hcc : c' = c := by rw [hh] at hc; simpa using hc
        have ht : t = [] := by
          have hdd : ((trim text).drop 8).drop 1 = (trim text).drop 9 := by
            rw [List.drop_drop]
          rw [hh, h9] at hdd
          simpa using hdd
        rw [hh, hcc, ht]
      have hsplit : (trim text).take 8 ++ [c] = trim text := by
        have := List.take_append_drop 8 (trim text)
        rw [hh] at this
        exact this
      have hrev : (trim text).reverse.head? = some c := by
        rw [← hsplit, List.reverse_append]
        rfl
      have := trim_last_not_space text c hrev
      rw [hsp] at this
      exact Bool.noConfusion this
    case isFalse hemp => exact SlashReply.noConfusion h
  case isFalse hacc => exact SlashReply.noConfusion h

/-- An append chain of the shape built by `_generateSlackMessage` contains
its token segment as an infix. -/
theorem append_shape (h p ta tb q r f tok : List Char) :
    ∃ pre suf, ((((h ++ p) ++ ((ta ++ tok) ++ tb)) ++ q) ++ r) ++ f = pre ++ tok ++ suf :=
  ⟨(h ++ p) ++ ta, ((tb ++ q) ++ r) ++ f, by simp [List.append_assoc]⟩

/-- The message text built by `_generateSlackMessage` contains the token
verbatim (the Session Token section quotes it). -/
theorem generateSlackMessage_contains_token (n : Notification) (token : List Char) :
    ∃ pre suf, generateSlackMessage n token = pre ++ token ++ suf := by
  simp only [generateSlackMessage]
  exact append_shape _ _ _ _ _ _ _ token

/-! ## Claim theorems -/

/-- C3: every token produced by `_generateToken` is exactly 8 characters
long and consists only of characters in `[A-Z0-9]`, for every sequence of
random draws. -/
theorem generateToken_shape (draws : Fin 8 → Fin 36) :
    (generateToken draws).length = 8 ∧ (generateToken draws).all isTokenChar = true := by
  constructor
  · simp [generateToken]
  · rw [List.all_eq_true]
    intro c hc
    simp only [generateToken, List.mem_map] at hc
    obtain ⟨i, hi, rfl⟩ := hc
    exact tokenAlphabet_entry_ok (draws i)

/-- C5: `_getCurrentTmuxSession` is a total function of the query outcome
(the `try`/`catch` never lets an exception escape) and returns either a
non-empty session name or `none` — in particular `none` when the query
throws or its trimmed output is empty. -/
theorem getCurrentTmuxSession_none_or_nonempty (execOutcome : Option (List Char)) :
    getCurrentTmuxSession execOutcome = none ∨
      ∃ name, getCurrentTmuxSession execOutcome = some name ∧ name ≠ [] := by
  cases execOutcome with
  | none => exact Or.inl rfl
  | some out =>
    by_cases h : (trim out).isEmpty = true
    · exact Or.inl (by simp [getCurrentTmuxSession, h])
    · refine Or.inr ⟨trim out, by simp [getCurrentTmuxSession, h], ?_⟩
      intro hnil
      exact h (List.isEmpty_iff.mpr hnil)

/-- C7: `_removeSession` is idempotent — removing an id twice equals
removing it once — and removing an absent id is a no-op. -/
theorem removeSession_idempotent (store : Store) (sessionId : Nat) :
    removeSession (removeSession store sessionId) sessionId = removeSession store sessionId
    ∧ ((∀ r ∈ store, r.id ≠ sessionId) → removeSession store sessionId = store) := by
  constructor
  · simp only [removeSession]
    rw [List.filter_filter]
    simp
  · intro h
    simp only [removeSession]
    apply List.filter_eq_self.mpr
    intro r hr
    simpa using h r hr

/-- Witness for C7 at a concrete store: id 1 is absent from
`[sampleSession]` (whose record has id 5). -/
theorem removeSession_idempotent_witness :
    removeSession (removeSession [sampleSession] 1) 1 = removeSession [sampleSession] 1
    ∧ removeSession [sampleSession] 1 = [sampleSession] := by
  have h := removeSession_idempotent [sampleSession] 1
  exact ⟨h.1, h.2 (by decide)⟩

/-- C2: a created record's `expires` is its `created` plus exactly 24
hours, and the expiry is fixed at creation: removal never alters a
surviving record, and a later creation adds its new record without
altering existing ones. -/
theorem session_expiry_fixed (store : Store) (now sessionId : Nat)
    (currentTmux : Option (List Char)) (conv : Conversation)
    (notification : Notification) (token : List Char) (otherId : Nat) :
    ((createSession store now sessionId currentTmux conv notification token).session.expires
      = (createSession store now sessionId currentTmux conv notification token).session.created
          + 24 * 60 * 60 * 1000)
    ∧ (∀ r ∈ (createSession store now sessionId currentTmux conv notification token).store,
        r = (createSession store now sessionId currentTmux conv notification token).session
          ∨ r ∈ store)
    ∧ (∀ r ∈ removeSession store otherId, r ∈ store) := by
  have hstore : (createSession store now sessionId currentTmux conv notification token).store
      = (store.filter fun r => r.id != sessionId)
        ++ [(createSession store now sessionId currentTmux conv notification token).session] := rfl
  refine ⟨rfl, ?_, ?_⟩
  · intro r hr
    rw [hstore] at hr
    rcases List.mem_append.mp hr with hr | hr
    · exact Or.inr (List.mem_filter.mp hr).1
    · exact Or.inl (by simpa using hr)
  · intro r hr
    simp only [removeSession] at hr
    exact (List.mem_filter.mp hr).1

/-- Witness for C2 at a concrete creation over the store `[sampleSession]`. -/
theorem session_expiry_fixed_witness :
    ((createSession [sampleSession] 0 1 none sampleConversation sampleNotification sampleToken).session.expires
      = (createSession [sampleSession] 0 1 none sampleConversation sampleNotification sampleToken).session.created
          + 24 * 60 * 60 * 1000)
    ∧ (sampleSession
        = (createSession [sampleSession] 0 1 none sampleConversation sampleNotification sampleToken).session
      ∨ sampleSession ∈ [sampleSession]) := by
  have h := session_expiry_fixed [sampleSession] 0 1 none sampleConversation sampleNotification sampleToken 5
  exact ⟨h.1, h.2.1 sampleSession (by decide)⟩

/-- C8: when no tmux session is resolved (`currentContext` returned
`none`) and the notification carries no context in its metadata, the
persisted record's target-context field holds the sentinel `'default'`. -/
theorem createSession_sentinel_context (store : Store) (now sessionId : Nat)
    (conv : Conversation) (notification : Notification) (token : List Char)
    (h : notification.metadata = none
        ∨ ∃ m, notification.metadata = some m ∧ m.tmuxSession = none) :
    (createSession store now sessionId none conv notification token).session.tmuxSession
      = defaultContext := by
  have hbase : (createSession store now sessionId none conv notification token).session.tmuxSession
      = resolveTmuxField notification.metadata := rfl
  rcases h with h | ⟨m, hm, hts⟩
  · rw [hbase, h]
    rfl
  · rw [hbase, hm]
    simp [resolveTmuxField, hts]

/-- Witness for C8: `sampleNotification` carries no metadata. -/
theorem createSession_sentinel_context_witness :
    (createSession [] 0 1 none sampleConversation sampleNotification sampleToken).session.tmuxSession
      = defaultContext :=
  createSession_sentinel_context [] 0 1 sampleConversation sampleNotification sampleToken (Or.inl rfl)

/-- C6: when the Slack post fails, `_sendImpl` removes the session it just
created (rollback) and returns `false`: with a fresh session id, the store
afterwards is exactly the store before. -/
theorem sendImpl_rollback_on_failure (store : Store) (now sessionId : Nat)
    (currentTmux : Option (List Char)) (conv : Conversation)
    (notification : Notification) (token : List Char)
    (hfresh : ∀ r ∈ store, r.id ≠ sessionId) :
    (sendImpl store now sessionId true currentTmux conv notification token false).store = store
    ∧ (sendImpl store now sessionId true currentTmux conv notification token false).retval
      = Except.ok false := by
  have hfilter : (store.filter fun r => r.id != sessionId) = store := by
    apply List.filter_eq_self.mpr
    intro r hr
    simpa using hfresh r hr
  constructor
  · have hst : (sendImpl store now sessionId true currentTmux conv notification token false).store
        = removeSession ((store.filter fun r => r.id != sessionId)
            ++ [(createSession store now sessionId currentTmux conv notification token).session])
            sessionId := rfl
    have hid : (createSession store now sessionId currentTmux conv notification token).session.id
        = sessionId := rfl
    rw [hst, hfilter]
    simp only [removeSession, List.filter_append]
    rw [hfilter]
    simp [List.filter_cons, hid]
  · rfl

/-- Witness for C6: a failed post over the store `[sampleSession]` (id 5),
creating with fresh id 1, leaves the store unchanged. -/
theorem sendImpl_rollback_on_failure_witness :
    (sendImpl [sampleSession] 0 1 true none sampleConversation sampleNotification sampleToken false).store
      = [sampleSession]
    ∧ (sendImpl [sampleSession] 0 1 true none sampleConversation sampleNotification sampleToken false).retval
      = Except.ok false :=
  sendImpl_rollback_on_failure [sampleSession] 0 1 none sampleConversation sampleNotification
    sampleToken (by decide)

/-- C1 (code bug): neither `_generateToken` nor `_createSession` consults
the store for a token collision. With every random draw landing on index
0, two consecutive creations both persist token `AAAAAAAA`: afterwards two
distinct session records, both live at time 0, hold the same token. -/
theorem token_collision_persisted :
    generateToken collidingDraws = String.toList "AAAAAAAA"
    ∧ collisionFirst.session ∈ collisionSecond.store
    ∧ collisionSecond.session ∈ collisionSecond.store
    ∧ collisionFirst.session.id ≠ collisionSecond.session.id
    ∧ collisionFirst.session.token = collisionSecond.session.token
    ∧ 0 < collisionFirst.session.expires
    ∧ 0 < collisionSecond.session.expires := by
  decide

/-- C9 (counterexample): `_sendImpl` returns only the boolean `true` on a
successful send. Two successful sends with different tokens and different
session ids return identical values, so the returned value carries neither
the generated token nor the session id. -/
theorem sendImpl_retval_carries_no_token :
    (sendImpl [] 0 1 true none sampleConversation sampleNotification
        (String.toList "AAAAAAAA") true).retval
      = (sendImpl [] 0 2 true none sampleConversation sampleNotification
          (String.toList "BBBBBBBB") true).retval
    ∧ String.toList "AAAAAAAA" ≠ String.toList "BBBBBBBB"
    ∧ (1 : Nat) ≠ 2 :=
  ⟨rfl, by decide, by decide⟩

/-- C9 (amended): on every successful send `_sendImpl` returns `true` to
its caller, and the generated token reaches the end user inside the posted
message text, which contains the token verbatim; the session id is only
logged, not returned. -/
theorem sendImpl_success_true_and_token_in_message (store : Store) (now sessionId : Nat)
    (currentTmux : Option (List Char)) (conv : Conversation)
    (notification : Notification) (token : List Char) :
    (sendImpl store now sessionId true currentTmux conv notification token true).retval
      = Except.ok true
    ∧ ∃ pre suf, (sendImpl store now sessionId true currentTmux conv notification token true).posted
        = some (pre ++ token ++ suf) := by
  constructor
  · rfl
  · obtain ⟨pre, suf, h⟩ := generateSlackMessage_contains_token
      (createSession store now sessionId currentTmux conv notification token).session.notification
      token
    refine ⟨pre, suf, ?_⟩
    have hp : (sendImpl store now sessionId true currentTmux conv notification token true).posted
        = some (generateSlackMessage
            (createSession store now sessionId currentTmux conv notification token).session.notification
            token) := rfl
    rw [hp, h]

/-- C4: the handler invokes the core relay iff the trimmed input matches
the pattern `^[A-Z0-9]{8}\s+.+$`; on a match it passes exactly the first 8
characters as the token and the non-empty remainder after one separator
character as the command text; any other input is answered with the
format-error reply and never reaches the core. -/
theorem slash_handler_iff_spec_pattern (text : List Char) :
    ((∃ tok cmd, handleSlashCommand text = SlashReply.invoke tok cmd) ↔
        specInboundPattern (trim text))
    ∧ (∀ tok cmd, handleSlashCommand text = SlashReply.invoke tok cmd →
        tok = (trim text).take 8 ∧ cmd = (trim text).drop 9 ∧ cmd ≠ [])
    ∧ (¬ specInboundPattern (trim text) →
        handleSlashCommand text = SlashReply.formatError) := by
  have hpat := specInboundPattern_iff (trim text)
  by_cases hacc : tokenRegexAccepts (trim text) = true
  · by_cases hemp : ((trim text).drop 9).isEmpty = true
    · exfalso
      apply handleSlashCommand_no_empty_reply text
      simp [handleSlashCommand, hacc, hemp]
    · have hinv : handleSlashCommand text
          = SlashReply.invoke ((trim text).take 8) ((trim text).drop 9) := by
        simp [handleSlashCommand, hacc, hemp]
      have h9 : (trim text).drop 9 ≠ [] := by
        intro hnil
        exact hemp (List.isEmpty_iff.mpr hnil)
      have hp : specInboundPattern (trim text) := hpat.mpr ⟨hacc, h9⟩
      refine ⟨⟨fun _ => hp, fun _ => ⟨_, _, hinv⟩⟩, ?_, fun hnp => absurd hp hnp⟩
      intro tok cmd h
      have heq := hinv.symm.trans h
      injection heq with h1 h2
      exact ⟨h1.symm, h2.symm, h2 ▸ h9⟩
  · have hfmt : handleSlashCommand text = SlashReply.formatError := by
      simp [handleSlashCommand, hacc]
    have hnp : ¬ specInboundPattern (trim text) := fun hp => hacc (hpat.mp hp).1
    refine ⟨⟨?_, fun hp => absurd hp hnp⟩, ?_, fun _ => hfmt⟩
    · rintro ⟨tok, cmd, h⟩
      exact absurd (hfmt.symm.trans h) (by simp)
    · intro tok cmd h
      exact absurd (hfmt.symm.trans h) (by simp)

/-- Witness for C4 at the concrete input `AB12CD34 hello`. -/
theorem slash_handler_iff_spec_pattern_witness :
    specInboundPattern (trim (String.toList "AB12CD34 hello"))
    ∧ (String.toList "AB12CD34" = (trim (String.toList "AB12CD34 hello")).take 8
      ∧ String.toList "hello" = (trim (String.toList "AB12CD34 hello")).drop 9
      ∧ String.toList "hello" ≠ []) := by
  have h := slash_handler_iff_spec_pattern (String.toList "AB12CD34 hello")
  have hinv : handleSlashCommand (String.toList "AB12CD34 hello")
      = SlashReply.invoke (String.toList "AB12CD34") (String.toList "hello") := by decide
  exact ⟨h.1.mp ⟨_, _, hinv⟩, h.2.1 _ _ hinv⟩

/-- C10: the handler's secondary rejection branch (`include a command
after the token`) is unreachable: once the trimmed input matches
`/^([A-Z0-9]{8})\s/`, the remainder after the token and one separator is
necessarily non-empty because trimming removed trailing whitespace. -/
theorem slash_handler_empty_branch_unreachable (text : List Char) :
    handleSlashCommand text ≠ SlashReply.emptyCommandError :=
  handleSlashCommand_no_empty_reply text

/-- Witness for C10 at a concrete input. -/
theorem slash_handler_empty_branch_unreachable_witness :
    handleSlashCommand (String.toList "AB12CD34 hi") ≠ SlashReply.emptyCommandError :=
  slash_handler_empty_branch_unreachable (String.toList "AB12CD34 hi")

end ClaudeCodeRemote
